import Mathlib

/-!
Shallow embedding of the `ai-batch-queue` crate
(`src/AI-Batch-Queue/src/{types,queue,eta}.rs`).

Modelling conventions:
* The generic payload type `D` is instantiated at `String` (as in the crate's
  own tests, `BatchQueue<String>`); no operation inspects the payload.
* Timestamps (`chrono::Utc::now().to_rfc3339()` strings) are modelled as a
  `Nat` supplied by the caller; RFC 3339 UTC strings compare chronologically,
  so `Nat` ordering is order-isomorphic to the source's string ordering.
* Fresh UUIDs are modelled as a caller-supplied `String` parameter.
* `Mutex` lock poisoning is the only error path of `enqueue`, `mark_running`,
  `update_item`, `mark_completed`, `cancel_job`; it cannot occur in a
  panic-free execution, so those operations model the `Result` as an
  `Except` value that is `.ok` on the paths the source can take.
* Rust `u64` sums of caller-supplied durations are reduced `% 2^64`
  (release-mode wrapping); the `count` accumulator counts API events and is
  kept as a plain `Nat` (one increment per call, so a `u64` counter cannot
  wrap in any execution).
* Rust `String` `Ord` is byte-wise lexicographic on UTF-8, which coincides
  with Lean's code-point lexicographic `String` order (UTF-8 preserves
  code-point order), so Lean's `≤` on `String` models `cmp`.
* `Vec::sort_by` is a stable sort; the unique stable-sorted result is
  computed here with `List.insertionSort` (also stable).
* `HashMap<EtaKey, EtaStats>` is modelled as an association list with unique
  keys: lookup takes the first match, insert updates the first match or
  appends.
-/

deriving instance DecidableEq for Except

namespace AIBatchQueue

/-- Per-item status within a batch job (`types.rs`). -/
inductive BatchItemStatus where
  | Pending
  | Running
  | Completed
  | Failed
  | Skipped
  | Cancelled
deriving DecidableEq

/-- Overall batch job status (`types.rs`). -/
inductive BatchJobStatus where
  | Queued
  | Running
  | Completed
  | CompletedWithErrors
  | Cancelled
deriving DecidableEq

/-- Overwrite policy for batch operations (`types.rs`). -/
inductive OverwritePolicy where
  | Skip
  | Overwrite
deriving DecidableEq

/-- Size bucket for ETA estimation (`types.rs`). -/
inductive SizeBucket where
  | Small
  | Medium
  | Large
  | Unknown
deriving DecidableEq

/-- A single item within a batch job (`types.rs`, payload at `String`). -/
structure BatchItem where
  id : String
  data : String
  status : BatchItemStatus
  error : Option String
  duration_ms : Option Nat
  size_bucket : SizeBucket
deriving DecidableEq

/-- A batch job (`types.rs`, payload at `String`, timestamps as `Nat`). -/
structure BatchJob where
  id : String
  resource_key : String
  operation : String
  overwrite_policy : OverwritePolicy
  items : List BatchItem
  status : BatchJobStatus
  created_at : Nat
  started_at : Option Nat
  completed_at : Option Nat
  reordered : Bool
  reorder_note : Option String
deriving DecidableEq

/-- Summary of a completed batch job (`types.rs`). -/
structure BatchCompletionSummary where
  job_id : String
  operation : String
  resource_key : String
  total : Nat
  succeeded : Nat
  failed : Nat
  skipped : Nat
  total_duration_ms : Nat
  avg_duration_ms : Nat
deriving DecidableEq

/-- Cache key for ETA estimation (`eta.rs`). -/
structure EtaKey where
  resource_key : String
  operation : String
  size_bucket : SizeBucket
deriving DecidableEq

/-- Accumulated duration statistics for one ETA key (`eta.rs`). -/
structure EtaStats where
  total_ms : Nat
  count : Nat
deriving DecidableEq

/-- The `u64` modulus: wrapping bound for duration sums. -/
def U64 : Nat := 18446744073709551616

/-- Average duration (`EtaStats::avg_ms`). -/
def EtaStats.avg_ms (s : EtaStats) : Nat :=
  if s.count = 0 then 0 else s.total_ms / s.count

/-- The whole queue state: the `jobs` vector and the ETA tracker's map. -/
structure QueueState where
  jobs : List BatchJob
  eta : List (EtaKey × EtaStats)
deriving DecidableEq

/-- First-match in-place update, the model of `iter_mut().find(p)` followed
by a mutation of the found element. -/
def updateFirst {α : Type} (p : α → Bool) (f : α → α) : List α → List α
  | [] => []
  | x :: xs => if p x then f x :: xs else x :: updateFirst p f xs

/-- Is this job in status `Queued`? -/
def isQueued (j : BatchJob) : Bool := j.status == BatchJobStatus.Queued

/-- Lexicographic byte-wise less-or-equal on code-point lists; UTF-8
byte-wise comparison (Rust `String` `Ord`) coincides with code-point
lexicographic comparison. -/
def charListLeB : List Char → List Char → Bool
  | [], _ => true
  | _ :: _, [] => false
  | c :: cs, d :: ds =>
    if c.toNat < d.toNat then true
    else if d.toNat < c.toNat then false
    else charListLeB cs ds

/-- Byte-wise `≤` on strings, the model of Rust `String` ordering. -/
def strLeB (a b : String) : Bool := charListLeB a.data b.data

/-- The comparator of `reorder_queued_jobs`:
`a.resource_key.cmp(&b.resource_key)` is at most `Greater`. -/
def jobLe (a b : BatchJob) : Prop := strLeB a.resource_key b.resource_key = true

instance : DecidableRel jobLe :=
  fun a b => inferInstanceAs (Decidable (strLeB a.resource_key b.resource_key = true))

/-- The flag update applied to every queued job when a reorder changed the
order (`queue.rs`, lines 82-86). -/
def setReorderFlag (j : BatchJob) : BatchJob :=
  { j with
    reordered := true
    reorder_note := some "Reordered: grouping by resource to minimize swaps" }

/-- Write the replacement jobs back into the queued slot positions
(`queue.rs`, lines 87-89: `queued_indices.iter().zip(queued_jobs)`). -/
def replaceQueued : List BatchJob → List BatchJob → List BatchJob
  | [], _ => []
  | j :: js, repl =>
    if isQueued j then
      match repl with
      | [] => j :: js
      | r :: rs => r :: replaceQueued js rs
    else j :: replaceQueued js repl

/-- `BatchQueue::reorder_queued_jobs` (`queue.rs`, lines 62-91): extract the
queued sub-list, stable-sort it by `resource_key`, and if the id sequence
changed, flag every queued job and write the sorted jobs back into the
queued slots. -/
def reorder_queued_jobs (jobs : List BatchJob) : List BatchJob :=
  if (jobs.filter isQueued).length < 2 then jobs
  else if (jobs.filter isQueued).map BatchJob.id
      = (List.insertionSort jobLe (jobs.filter isQueued)).map BatchJob.id then jobs
  else replaceQueued jobs
    ((List.insertionSort jobLe (jobs.filter isQueued)).map setReorderFlag)

/-- `BatchQueue::enqueue` (`queue.rs`, lines 42-56). `freshId` models
`uuid::Uuid::new_v4()`, `now` models `chrono::Utc::now()`. -/
def enqueue (st : QueueState) (job : BatchJob) (freshId : String) (now : Nat) :
    Except String String × QueueState :=
  let j :=
    { job with
      id := if job.id = "" then freshId else job.id
      status := BatchJobStatus.Queued
      created_at := now }
  (Except.ok j.id, { st with jobs := reorder_queued_jobs (st.jobs ++ [j]) })

/-- `BatchQueue::mark_running` (`queue.rs`, lines 102-109). -/
def mark_running (st : QueueState) (jobId : String) (now : Nat) :
    Except String Unit × QueueState :=
  (Except.ok (),
    { st with
      jobs := updateFirst (fun j => j.id == jobId)
        (fun j => { j with status := BatchJobStatus.Running, started_at := some now })
        st.jobs })

/-- `BatchQueue::update_item` (`queue.rs`, lines 115-143): update the first
matching item of the first matching job; if the new status is `Completed`
and a duration is supplied, record an ETA sample for
`(resource_key, operation, size_bucket)`. -/
def etaRecord (m : List (EtaKey × EtaStats)) (k : EtaKey) (ms : Nat) :
    List (EtaKey × EtaStats) :=
  match m with
  | [] => [(k, ⟨ms % U64, 1⟩)]
  | p :: rest =>
    if p.1 = k then
      (p.1, ⟨(p.2.total_ms + ms) % U64, p.2.count + 1⟩) :: rest
    else p :: etaRecord rest k ms

/-- Lookup in the ETA map (`HashMap::get`). -/
def etaLookup : List (EtaKey × EtaStats) → EtaKey → Option EtaStats
  | [], _ => none
  | p :: rest, k => if p.1 = k then some p.2 else etaLookup rest k

def update_item (st : QueueState) (jobId itemId : String)
    (status : BatchItemStatus) (error : Option String) (duration_ms : Option Nat) :
    Except String Unit × QueueState :=
  match st.jobs.find? (fun j => j.id == jobId) with
  | none => (Except.ok (), st)
  | some j =>
    match j.items.find? (fun i => i.id == itemId) with
    | none => (Except.ok (), st)
    | some it =>
      let jobs2 := updateFirst (fun j2 => j2.id == jobId)
        (fun j2 =>
          { j2 with
            items := updateFirst (fun i => i.id == itemId)
              (fun i => { i with status := status, error := error, duration_ms := duration_ms })
              j2.items })
        st.jobs
      let eta2 :=
        match status, duration_ms with
        | BatchItemStatus.Completed, some ms =>
          etaRecord st.eta ⟨j.resource_key, j.operation, it.size_bucket⟩ ms
        | _, _ => st.eta
      (Except.ok (), ⟨jobs2, eta2⟩)

/-- `BatchQueue::mark_completed` (`queue.rs`, lines 149-198). -/
def mark_completed (st : QueueState) (jobId : String) (now : Nat) :
    Except String (Option BatchCompletionSummary) × QueueState :=
  match st.jobs.find? (fun j => j.id == jobId) with
  | none => (Except.ok none, st)
  | some j =>
    let failed := (j.items.filter (fun i => i.status == BatchItemStatus.Failed)).length
    let succeeded := (j.items.filter (fun i => i.status == BatchItemStatus.Completed)).length
    let skipped := (j.items.filter (fun i =>
      i.status == BatchItemStatus.Cancelled || i.status == BatchItemStatus.Skipped)).length
    let newStatus :=
      if failed > 0 then BatchJobStatus.CompletedWithErrors else BatchJobStatus.Completed
    let total_ms := (j.items.filterMap (fun i => i.duration_ms)).sum % U64
    let processed := succeeded + failed
    let avg_ms := if processed > 0 then total_ms / processed else 0
    let jobs2 := updateFirst (fun j2 => j2.id == jobId)
      (fun j2 => { j2 with status := newStatus, completed_at := some now }) st.jobs
    (Except.ok (some
      { job_id := j.id
        operation := j.operation
        resource_key := j.resource_key
        total := j.items.length
        succeeded := succeeded
        failed := failed
        skipped := skipped
        total_duration_ms := total_ms
        avg_duration_ms := avg_ms }),
      ⟨jobs2, st.eta⟩)

/-- The per-item step of `cancel_job`: `Pending` becomes `Cancelled`, every
other status is kept. -/
def cancelPendingItem (i : BatchItem) : BatchItem :=
  if i.status == BatchItemStatus.Pending
  then { i with status := BatchItemStatus.Cancelled } else i

/-- The job transformation of `cancel_job` on the found job: cancel pending
items, then mark the job `Cancelled` with `completed_at` unless some item is
still `Running`. -/
def cancelJobUpdate (now : Nat) (j : BatchJob) : BatchJob :=
  if (j.items.map cancelPendingItem).any
      (fun i => i.status == BatchItemStatus.Running)
  then { j with items := j.items.map cancelPendingItem }
  else
    { j with
      items := j.items.map cancelPendingItem
      status := BatchJobStatus.Cancelled
      completed_at := some now }

/-- `BatchQueue::cancel_job` (`queue.rs`, lines 214-232). -/
def cancel_job (st : QueueState) (jobId : String) (now : Nat) :
    Except String Unit × QueueState :=
  (Except.ok (),
    { st with
      jobs := updateFirst (fun j => j.id == jobId) (cancelJobUpdate now) st.jobs })

/-- The item reset applied by `retry_failed` to `Failed` items. -/
def resetFailedItem (i : BatchItem) : BatchItem :=
  if i.status == BatchItemStatus.Failed
  then { i with status := BatchItemStatus.Pending, error := none, duration_ms := none }
  else i

/-- The job transformation of `retry_failed` on the found job. -/
def retryJobUpdate (j : BatchJob) : BatchJob :=
  { j with
    items := j.items.map resetFailedItem
    status := BatchJobStatus.Queued
    completed_at := none }

/-- `BatchQueue::retry_failed` (`queue.rs`, lines 236-258). -/
def retry_failed (st : QueueState) (jobId : String) :
    Except String Unit × QueueState :=
  match st.jobs.find? (fun j => j.id == jobId) with
  | none => (Except.ok (), st)
  | some j =>
    if j.items.any (fun i => i.status == BatchItemStatus.Failed) then
      (Except.ok (),
        { st with
          jobs := reorder_queued_jobs
            (updateFirst (fun j2 => j2.id == jobId) retryJobUpdate st.jobs) })
    else (Except.error ("No failed items to retry in job " ++ jobId), st)

/-- One step contribution of a bucket in `EtaTracker::estimate_remaining`:
the exact key's average, else the `Unknown` fallback's average, else
nothing. -/
def bucketContribution (m : List (EtaKey × EtaStats)) (rk op : String)
    (b : SizeBucket) : Option Nat :=
  match etaLookup m ⟨rk, op, b⟩ with
  | some s => some s.avg_ms
  | none =>
    match etaLookup m ⟨rk, op, SizeBucket.Unknown⟩ with
    | some s => some s.avg_ms
    | none => none

/-- The accumulator loop of `EtaTracker::estimate_remaining`
(`eta.rs`, lines 116-140). -/
def estimateLoop (m : List (EtaKey × EtaStats)) (rk op : String) :
    List SizeBucket → Nat → Bool → Nat × Bool
  | [], acc, has => (acc, has)
  | b :: rest, acc, has =>
    match bucketContribution m rk op b with
    | some a => estimateLoop m rk op rest ((acc + a) % U64) true
    | none => estimateLoop m rk op rest acc has

/-- `EtaTracker::estimate_remaining` (`eta.rs`, lines 108-147). -/
def estimate_remaining (m : List (EtaKey × EtaStats)) (rk op : String)
    (remaining_buckets : List SizeBucket) : Option Nat :=
  let r := estimateLoop m rk op remaining_buckets 0 false
  if r.2 then some r.1 else none

/-- `EtaTracker::estimate_one` (`eta.rs`, lines 80-105). -/
def estimate_one (m : List (EtaKey × EtaStats)) (rk op : String)
    (b : SizeBucket) : Option Nat :=
  bucketContribution m rk op b

/-- `EtaTracker::sample_count` (`eta.rs`, lines 150-166). -/
def sample_count (m : List (EtaKey × EtaStats)) (rk op : String)
    (b : SizeBucket) : Nat :=
  match etaLookup m ⟨rk, op, b⟩ with
  | some s => s.count
  | none => 0

/-- `BatchQueue::estimate_remaining_ms` (`queue.rs`, lines 277-296). -/
def estimate_remaining_ms (st : QueueState) (jobId : String) : Option Nat :=
  match st.jobs.find? (fun j => j.id == jobId) with
  | none => none
  | some j =>
    let remaining := (j.items.filter (fun i =>
      i.status == BatchItemStatus.Pending || i.status == BatchItemStatus.Running)).map
      (fun i => i.size_bucket)
    if remaining.isEmpty then some 0
    else estimate_remaining st.eta j.resource_key j.operation remaining

/-- Erase the reorder bookkeeping fields, for comparing job content across a
reorder pass. -/
def clearFlag (j : BatchJob) : BatchJob :=
  { j with reordered := false, reorder_note := none }

/-- The ordering the spec claims for the queued sub-list, restricted to the
fields the source's data model has: the spec's key is
`(priority_integer, resource_key, created_at)`, but `BatchJob` carries no
priority field, so the key degenerates to `(resource_key, created_at)`. -/
def sortedByResourceCreated : List BatchJob → Bool
  | [] => true
  | [_] => true
  | a :: b :: rest =>
    strLeB a.resource_key b.resource_key &&
    (if a.resource_key = b.resource_key then decide (a.created_at ≤ b.created_at) else true) &&
    sortedByResourceCreated (b :: rest)

/-- A fresh pending item. -/
def mkItem (iid : String) (b : SizeBucket) : BatchItem :=
  ⟨iid, "", BatchItemStatus.Pending, none, none, b⟩

/-- A fresh job as the crate's tests build one. -/
def mkJob (jid rk op : String) (items : List BatchItem) : BatchJob :=
  ⟨jid, rk, op, OverwritePolicy.Skip, items, BatchJobStatus.Queued, 0, none, none, false, none⟩

/-- C1 counterexample trace, step 1: enqueue job `q` on resource `x`. -/
def c1ex1 : QueueState :=
  (enqueue ⟨[], []⟩ (mkJob "q" "x" "tag" [mkItem "i" SizeBucket.Medium]) "u1" 1).2

/-- Step 2: enqueue job `a` on the same resource `x`. -/
def c1ex2 : QueueState :=
  (enqueue c1ex1 (mkJob "a" "x" "tag" [mkItem "i" SizeBucket.Medium]) "u2" 2).2

/-- Step 3: run job `a`. -/
def c1ex3 : QueueState := (mark_running c1ex2 "a" 3).2

/-- Step 4: its item fails. -/
def c1ex4 : QueueState :=
  (update_item c1ex3 "a" "i" BatchItemStatus.Failed (some "err") none).2

/-- Step 5: complete job `a` (with errors). -/
def c1ex5 : QueueState := (mark_completed c1ex4 "a" 5).2

/-- Step 6: enqueue job `w` on resource `w`; the reorder moves it to slot 0
and job `q` to slot 2, around the parked job `a`. -/
def c1ex6 : QueueState :=
  (enqueue c1ex5 (mkJob "w" "w" "tag" [mkItem "i" SizeBucket.Medium]) "u3" 6).2

/-- Step 7: retry job `a`: it re-enters the queued sub-list at slot 1,
before the older job `q` of the same resource. -/
def c1ex7 : Except String Unit × QueueState := retry_failed c1ex6 "a"

/-- C3 scenario, step 1: a job with three `Medium` items. -/
def c3ex1 : QueueState :=
  (enqueue ⟨[], []⟩
    (mkJob "j" "m" "tag"
      [mkItem "i0" SizeBucket.Medium, mkItem "i1" SizeBucket.Medium,
        mkItem "i2" SizeBucket.Medium]) "u" 1).2

/-- C3 scenario, step 2: mark it running. -/
def c3ex2 : QueueState := (mark_running c3ex1 "j" 2).2

/-- C3 scenario, step 3: item 0 completes in 1000 ms. -/
def c3ex3 : QueueState :=
  (update_item c3ex2 "j" "i0" BatchItemStatus.Completed none (some 1000)).2

/-- C3 scenario continued: item 1 completes in 1000 ms. -/
def c3ex4 : QueueState :=
  (update_item c3ex3 "j" "i1" BatchItemStatus.Completed none (some 1000)).2

/-- C3 scenario continued: item 2 completes, so every item is terminal. -/
def c3ex5 : QueueState :=
  (update_item c3ex4 "j" "i2" BatchItemStatus.Completed none (some 1000)).2

/-- The all-terminal job stored in the final C3 scenario state. -/
def c3tjob : BatchJob :=
  (c3ex5.jobs.find? (fun x => x.id == "j")).getD (mkJob "" "" "" [])

/-- C4 scenario, steps 1-2: a running job with three `Medium` items. -/
def c4ex2 : QueueState :=
  (mark_running
    (enqueue ⟨[], []⟩
      (mkJob "j" "m" "op"
        [mkItem "i0" SizeBucket.Medium, mkItem "i1" SizeBucket.Medium,
          mkItem "i2" SizeBucket.Medium]) "u" 1).2 "j" 2).2

/-- C4 scenario: item 0 completed in 1000 ms. -/
def c4ex3 : QueueState :=
  (update_item c4ex2 "j" "i0" BatchItemStatus.Completed none (some 1000)).2

/-- C4 scenario: item 1 failed after 5000 ms with error `timeout`. -/
def c4ex4 : QueueState :=
  (update_item c4ex3 "j" "i1" BatchItemStatus.Failed (some "timeout") (some 5000)).2

/-- C4 scenario: item 2 completed in 1000 ms. -/
def c4ex5 : QueueState :=
  (update_item c4ex4 "j" "i2" BatchItemStatus.Completed none (some 1000)).2

/-- The job stored in the C4 scenario state. -/
def c4job : BatchJob :=
  (c4ex5.jobs.find? (fun x => x.id == "j")).getD (mkJob "" "" "" [])

/-- C5 scenario: the C4 job marked completed (status `CompletedWithErrors`). -/
def c5ex : QueueState := (mark_completed c4ex5 "j" 9).2

/-- The job stored in the C5 scenario state. -/
def c5job : BatchJob :=
  (c5ex.jobs.find? (fun x => x.id == "j")).getD (mkJob "" "" "" [])

/-- C6 witness scenario: a queued job with one pending item. -/
def c6ex : QueueState :=
  (enqueue ⟨[], []⟩ (mkJob "a" "m" "t" [mkItem "i" SizeBucket.Medium]) "u" 1).2

/-- The job stored in the C6 witness scenario state. -/
def c6job : BatchJob :=
  (c6ex.jobs.find? (fun x => x.id == "a")).getD (mkJob "" "" "" [])

/-- C7 counterexample, step 1: a queued job. -/
def c7ex1 : QueueState :=
  (enqueue ⟨[], []⟩ (mkJob "a" "m" "t" [mkItem "i" SizeBucket.Medium]) "u" 1).2

/-- C7 counterexample, step 2: mark it completed (terminal status). -/
def c7ex2 : QueueState := (mark_completed c7ex1 "a" 2).2

/-- The job stored in the C7 state before `mark_running`. -/
def c7job : BatchJob :=
  (c7ex2.jobs.find? (fun x => x.id == "a")).getD (mkJob "" "" "" [])

/-- C7 counterexample, step 3: `mark_running` on the terminal job. -/
def c7ex3 : QueueState := (mark_running c7ex2 "a" 3).2

/-- C8 counterexample, step 1: enqueue a job with the supplied id `a`. -/
def c8ex1 : QueueState :=
  (enqueue ⟨[], []⟩ (mkJob "a" "m" "t" [mkItem "i" SizeBucket.Medium]) "u1" 1).2

/-- C8 counterexample, step 2: enqueue a second job with the same id `a`. -/
def c8ex2 : Except String String × QueueState :=
  enqueue c8ex1 (mkJob "a" "m" "t" [mkItem "i" SizeBucket.Medium]) "u2" 2

/-- C10 witness scenario: a job whose single item was cancelled. -/
def c10ex : QueueState := (cancel_job c6ex "a" 2).2

/-- The job stored in the C10 witness scenario state. -/
def c10job : BatchJob :=
  (c10ex.jobs.find? (fun x => x.id == "a")).getD (mkJob "" "" "" [])

/-- The cancelled item of the C10 witness job. -/
def c10item : BatchItem :=
  (c10job.items.find? (fun x => x.id == "i")).getD (mkItem "" SizeBucket.Unknown)

/-- C9 witness scenario: the running C3 job before any completion. -/
def c9job : BatchJob :=
  (c3ex2.jobs.find? (fun x => x.id == "j")).getD (mkJob "" "" "" [])

/-- The first item of the C9 witness job. -/
def c9item : BatchItem :=
  (c9job.items.find? (fun x => x.id == "i0")).getD (mkItem "" SizeBucket.Unknown)

/-! Order lemmas for the byte-wise string comparator. -/

theorem charListLeB_refl : ∀ xs : List Char, charListLeB xs xs = true
  | [] => rfl
  | x :: xs => by simp [charListLeB, Nat.lt_irrefl, charListLeB_refl xs]

theorem charListLeB_total : ∀ xs ys : List Char,
    charListLeB xs ys = true ∨ charListLeB ys xs = true
  | [], _ => Or.inl rfl
  | _ :: _, [] => Or.inr rfl
  | x :: xs, y :: ys => by
    simp only [charListLeB]
    rcases Nat.lt_trichotomy x.toNat y.toNat with h | h | h
    · left; simp [h]
    · rcases charListLeB_total xs ys with ih | ih
      · left; simp [h, Nat.lt_irrefl, ih]
      · right; simp [h, Nat.lt_irrefl, ih]
    · right; simp [h]

theorem charListLeB_trans : ∀ xs ys zs : List Char,
    charListLeB xs ys = true → charListLeB ys zs = true → charListLeB xs zs = true
  | [], _, _, _, _ => rfl
  | _ :: _, [], _, h1, _ => by simp [charListLeB] at h1
  | _ :: _, _ :: _, [], _, h2 => by simp [charListLeB] at h2
  | x :: xs, y :: ys, z :: zs, h1, h2 => by
    simp only [charListLeB] at h1 h2 ⊢
    rcases Nat.lt_trichotomy x.toNat y.toNat with hxy | hxy | hxy
    · rcases Nat.lt_trichotomy y.toNat z.toNat with hyz | hyz | hyz
      · simp [Nat.lt_trans hxy hyz]
      · simp [hyz ▸ hxy]
      · simp [hyz, Nat.lt_asymm hyz] at h2
    · rw [if_neg (by omega), if_neg (by omega)] at h1
      rcases Nat.lt_trichotomy y.toNat z.toNat with hyz | hyz | hyz
      · simp [show x.toNat < z.toNat by omega]
      · rw [if_neg (by omega), if_neg (by omega)] at h2
        rw [if_neg (by omega), if_neg (by omega)]
        exact charListLeB_trans xs ys zs h1 h2
      · simp [hyz, Nat.lt_asymm hyz] at h2
    · simp [hxy, Nat.lt_asymm hxy] at h1

theorem strLeB_refl (s : String) : strLeB s s = true := charListLeB_refl s.data

theorem jobLe_total (a b : BatchJob) : jobLe a b ∨ jobLe b a :=
  charListLeB_total _ _

theorem jobLe_trans {a b c : BatchJob} (h1 : jobLe a b) (h2 : jobLe b c) : jobLe a c :=
  charListLeB_trans _ _ _ h1 h2

theorem jobLe_of_key_eq {a b : BatchJob} (h : a.resource_key = b.resource_key) :
    jobLe a b := by
  unfold jobLe strLeB
  rw [h]
  exact charListLeB_refl _

theorem key_ne_of_not_jobLe {a b : BatchJob} (h : ¬ jobLe a b) :
    b.resource_key ≠ a.resource_key :=
  fun he => h (jobLe_of_key_eq he.symm)

theorem jobLe_of_not_jobLe {a b : BatchJob} (h : ¬ jobLe a b) : jobLe b a :=
  (jobLe_total a b).resolve_left h

/-! List helper lemmas. -/

theorem find?_updateFirst {α : Type} (p : α → Bool) (f : α → α)
    (hp : ∀ x, p (f x) = p x) :
    ∀ l : List α, List.find? p (updateFirst p f l) = (List.find? p l).map f
  | [] => rfl
  | x :: xs => by
    by_cases hx : p x = true
    · simp [updateFirst, hx, List.find?_cons_of_pos, hp x]
    · have hx2 : p x = false := by simp at hx; exact hx
      simp [updateFirst, hx2, List.find?_cons_of_neg, find?_updateFirst p f hp xs]

theorem length_updateFirst {α : Type} (p : α → Bool) (f : α → α) :
    ∀ l : List α, (updateFirst p f l).length = l.length
  | [] => rfl
  | x :: xs => by
    by_cases hx : p x = true
    · simp [updateFirst, hx]
    · simp [updateFirst, hx, length_updateFirst p f xs]

theorem length_replaceQueued :
    ∀ (l repl : List BatchJob), (replaceQueued l repl).length = l.length
  | [], _ => by simp [replaceQueued]
  | j :: js, repl => by
    by_cases hj : isQueued j = true
    · cases repl with
      | nil => simp [replaceQueued, hj]
      | cons r rs => simp [replaceQueued, hj, length_replaceQueued js rs]
    · have hj2 : isQueued j = false := by simp at hj; exact hj
      simp [replaceQueued, hj2, length_replaceQueued js repl]

theorem filter_replaceQueued :
    ∀ (l repl : List BatchJob), (∀ r ∈ repl, isQueued r = true) →
      repl.length = (l.filter isQueued).length →
      (replaceQueued l repl).filter isQueued = repl
  | [], repl, _, hlen => by
    simp at hlen
    simp [replaceQueued, hlen]
  | j :: js, repl, hq, hlen => by
    by_cases hj : isQueued j = true
    · rw [List.filter_cons_of_pos hj] at hlen
      cases repl with
      | nil => simp at hlen
      | cons r rs =>
        have hr : isQueued r = true := hq r (by simp)
        simp only [replaceQueued, hj, if_pos]
        rw [List.filter_cons_of_pos hr]
        rw [filter_replaceQueued js rs (fun x hx => hq x (by simp [hx])) (by simpa using hlen)]
    · have hj2 : isQueued j = false := by simp at hj; exact hj
      rw [List.filter_cons_of_neg (by simp [hj2])] at hlen
      simp only [replaceQueued, hj2, Bool.false_eq_true, if_neg, ite_false]
      rw [List.filter_cons_of_neg (by simp [hj2])]
      exact filter_replaceQueued js repl hq hlen

theorem forall₂_replaceQueued :
    ∀ (l repl : List BatchJob), (∀ r ∈ repl, isQueued r = true) →
      repl.length = (l.filter isQueued).length →
      List.Forall₂ (fun a b => b.status = a.status ∧ (isQueued a = false → b = a))
        l (replaceQueued l repl)
  | [], _, _, _ => by simp [replaceQueued]
  | j :: js, repl, hq, hlen => by
    by_cases hj : isQueued j = true
    · rw [List.filter_cons_of_pos hj] at hlen
      cases repl with
      | nil => simp at hlen
      | cons r rs =>
        have hr : isQueued r = true := hq r (by simp)
        simp only [replaceQueued, hj, if_pos]
        constructor
        · constructor
          · have h1 : j.status = BatchJobStatus.Queued := by
              simpa [isQueued] using hj
            have h2 : r.status = BatchJobStatus.Queued := by
              simpa [isQueued] using hr
            rw [h1, h2]
          · intro hcon
            rw [hj] at hcon
            exact absurd hcon (by simp)
        · exact forall₂_replaceQueued js rs (fun x hx => hq x (by simp [hx]))
            (by simpa using hlen)
    · have hj2 : isQueued j = false := by simp at hj; exact hj
      rw [List.filter_cons_of_neg (by simp [hj2])] at hlen
      simp only [replaceQueued, hj2, Bool.false_eq_true, if_neg, ite_false]
      exact List.Forall₂.cons ⟨rfl, fun _ => rfl⟩
        (forall₂_replaceQueued js repl hq hlen)

theorem eq_of_perm_of_map_eq {α β : Type} (f : α → β) :
    ∀ (l₂ l₁ : List α), l₁.Perm l₂ → l₂.Pairwise (fun a b => f a ≠ f b) →
      l₁.map f = l₂.map f → l₁ = l₂
  | [], l₁, hperm, _, _ => hperm.eq_nil
  | x :: xs, l₁, hperm, hpw, hmap => by
    cases l₁ with
    | nil => exact absurd hperm.symm.eq_nil (by simp)
    | cons y ys =>
      simp only [List.map_cons, List.cons.injEq] at hmap
      have hyx : y = x := by
        have hy : y ∈ x :: xs := hperm.mem_iff.mp (by simp)
        rcases List.mem_cons.mp hy with h | h
        · exact h
        · exact absurd hmap.1 ((List.pairwise_cons.mp hpw).1 y h).symm.elim
      subst hyx
      have := eq_of_perm_of_map_eq f xs ys (hperm.cons_inv)
        (List.pairwise_cons.mp hpw).2 hmap.2
      rw [this]

theorem forall₂_updateFirst {α : Type} (p : α → Bool) (f : α → α) :
    ∀ l : List α,
      List.Forall₂ (fun a b => p a = false → b = a) l (updateFirst p f l)
  | [] => List.Forall₂.nil
  | x :: xs => by
    by_cases hx : p x = true
    · simp only [updateFirst, hx, if_pos]
      exact List.Forall₂.cons (fun hc => absurd (hx.symm.trans hc) (by simp))
        (List.forall₂_same.mpr fun a _ _ => rfl)
    · have hx2 : p x = false := by simp at hx; exact hx
      simp only [updateFirst, hx2, Bool.false_eq_true, if_neg, ite_false]
      exact List.Forall₂.cons (fun _ => rfl) (forall₂_updateFirst p f xs)

theorem updateFirst_of_find?_none {α : Type} (p : α → Bool) (f : α → α) :
    ∀ l : List α, List.find? p l = none → updateFirst p f l = l
  | [], _ => rfl
  | x :: xs, h => by
    rw [List.find?_cons] at h
    cases hx : p x with
    | true => rw [hx] at h; simp at h
    | false =>
      rw [hx] at h
      simp only [updateFirst, hx, Bool.false_eq_true, if_neg, ite_false]
      rw [updateFirst_of_find?_none p f xs h]

/-! Lemmas about the ETA accumulator. -/

theorem etaLookup_etaRecord_self (k : EtaKey) (ms : Nat) :
    ∀ m : List (EtaKey × EtaStats),
      etaLookup (etaRecord m k ms) k
        = some ⟨(((etaLookup m k).getD ⟨0, 0⟩).total_ms + ms) % U64,
            ((etaLookup m k).getD ⟨0, 0⟩).count + 1⟩
  | [] => by simp [etaRecord, etaLookup]
  | p :: rest => by
    by_cases hp : p.1 = k
    · simp [etaRecord, etaLookup, hp]
    · simp only [etaRecord, hp, if_neg, ite_false, etaLookup]
      exact etaLookup_etaRecord_self k ms rest

theorem estimateLoop_snd (m : List (EtaKey × EtaStats)) (rk op : String) :
    ∀ (bs : List SizeBucket) (acc : Nat) (has : Bool),
      (estimateLoop m rk op bs acc has).2
        = (has || bs.any (fun b => (bucketContribution m rk op b).isSome))
  | [], _, has => by simp [estimateLoop]
  | b :: rest, acc, has => by
    simp only [estimateLoop, List.any_cons]
    cases hc : bucketContribution m rk op b with
    | none =>
      rw [estimateLoop_snd m rk op rest acc has]
      simp [hc]
    | some a =>
      rw [estimateLoop_snd m rk op rest ((acc + a) % U64) true]
      simp [hc]

theorem estimateLoop_fst (m : List (EtaKey × EtaStats)) (rk op : String) :
    ∀ (bs : List SizeBucket) (acc : Nat) (has : Bool), acc < U64 →
      (estimateLoop m rk op bs acc has).1
        = (acc + (bs.map (fun b => (bucketContribution m rk op b).getD 0)).sum) % U64
  | [], acc, has, hacc => by
    simp [estimateLoop, Nat.mod_eq_of_lt hacc]
  | b :: rest, acc, has, hacc => by
    simp only [estimateLoop, List.map_cons, List.sum_cons]
    cases hc : bucketContribution m rk op b with
    | none =>
      rw [estimateLoop_fst m rk op rest acc has hacc]
      simp [hc]
    | some a =>
      rw [estimateLoop_fst m rk op rest ((acc + a) % U64) true
        (Nat.mod_lt _ (by unfold U64; omega))]
      rw [Nat.mod_add_mod]
      simp [hc, Nat.add_assoc]

theorem estimate_remaining_characterization (m : List (EtaKey × EtaStats))
    (rk op : String) (bs : List SizeBucket) :
    estimate_remaining m rk op bs
      = if bs.any (fun b => (bucketContribution m rk op b).isSome)
        then some ((bs.map (fun b => (bucketContribution m rk op b).getD 0)).sum % U64)
        else none := by
  simp only [estimate_remaining]
  rw [estimateLoop_snd m rk op bs 0 false,
    estimateLoop_fst m rk op bs 0 false (by unfold U64; omega)]
  simp

/-! Lemmas about `cancel_job` and item counting. -/

theorem cancelPendingItem_status_running (i : BatchItem) :
    ((cancelPendingItem i).status == BatchItemStatus.Running)
      = (i.status == BatchItemStatus.Running) := by
  cases hs : i.status <;> simp [cancelPendingItem, hs]

theorem any_running_map_cancelPending (items : List BatchItem) :
    (items.map cancelPendingItem).any (fun i => i.status == BatchItemStatus.Running)
      = items.any (fun i => i.status == BatchItemStatus.Running) := by
  rw [List.any_map]
  induction items with
  | nil => rfl
  | cons i t ih =>
    simp only [List.any_cons, ih, Function.comp]
    rw [cancelPendingItem_status_running]

theorem cancelJobUpdate_items (now : Nat) (j : BatchJob) :
    (cancelJobUpdate now j).items = j.items.map cancelPendingItem := by
  unfold cancelJobUpdate
  split_ifs <;> rfl

theorem cancelJobUpdate_id (now : Nat) (j : BatchJob) :
    (cancelJobUpdate now j).id = j.id := by
  unfold cancelJobUpdate
  split_ifs <;> rfl

theorem filter_length_pos_iff_any {α : Type} (p : α → Bool) (l : List α) :
    0 < (l.filter p).length ↔ l.any p = true := by
  rw [List.length_pos, List.any_eq_true]
  constructor
  · intro h
    cases hf : l.filter p with
    | nil => exact absurd hf h
    | cons x t =>
      have hx : x ∈ l.filter p := by rw [hf]; simp
      exact ⟨x, List.mem_of_mem_filter hx, List.of_mem_filter hx⟩
  · rintro ⟨x, hxl, hpx⟩ hnil
    exact absurd hpx ((List.filter_eq_nil_iff.mp hnil) x hxl)

/-! Stability of the insertion sort with respect to equal resource keys. -/

theorem filter_orderedInsert_of_key_eq (k : String) (a : BatchJob)
    (ha : a.resource_key = k) :
    ∀ l : List BatchJob,
      (List.orderedInsert jobLe a l).filter (fun j => j.resource_key == k)
        = a :: l.filter (fun j => j.resource_key == k)
  | [] => by simp [List.orderedInsert, ha]
  | b :: t => by
    by_cases hab : jobLe a b
    · simp only [List.orderedInsert, if_pos hab]
      rw [List.filter_cons_of_pos (by simp [ha])]
    · have hbk : b.resource_key ≠ k := by
        intro hbk
        exact key_ne_of_not_jobLe hab (hbk.trans ha.symm)
      simp only [List.orderedInsert, if_neg hab]
      rw [List.filter_cons_of_neg (by simp [hbk]),
        List.filter_cons_of_neg (by simp [hbk])]
      exact filter_orderedInsert_of_key_eq k a ha t

theorem filter_orderedInsert_of_key_ne (k : String) (a : BatchJob)
    (ha : a.resource_key ≠ k) :
    ∀ l : List BatchJob,
      (List.orderedInsert jobLe a l).filter (fun j => j.resource_key == k)
        = l.filter (fun j => j.resource_key == k)
  | [] => by simp [List.orderedInsert, ha]
  | b :: t => by
    by_cases hab : jobLe a b
    · simp only [List.orderedInsert, if_pos hab]
      rw [List.filter_cons_of_neg (by simp [ha])]
    · simp only [List.orderedInsert, if_neg hab]
      by_cases hb : b.resource_key = k
      · rw [List.filter_cons_of_pos (by simp [hb]),
          List.filter_cons_of_pos (by simp [hb]),
          filter_orderedInsert_of_key_ne k a ha t]
      · rw [List.filter_cons_of_neg (by simp [hb]),
          List.filter_cons_of_neg (by simp [hb])]
        exact filter_orderedInsert_of_key_ne k a ha t

theorem filter_insertionSort_key (k : String) :
    ∀ l : List BatchJob,
      (List.insertionSort jobLe l).filter (fun j => j.resource_key == k)
        = l.filter (fun j => j.resource_key == k)
  | [] => rfl
  | a :: l => by
    simp only [List.insertionSort]
    by_cases ha : a.resource_key = k
    · rw [filter_orderedInsert_of_key_eq k a ha, filter_insertionSort_key k l,
        List.filter_cons_of_pos (by simp [ha])]
    · rw [filter_orderedInsert_of_key_ne k a ha, filter_insertionSort_key k l,
        List.filter_cons_of_neg (by simp [ha])]

theorem sorted_map_setReorderFlag {l : List BatchJob}
    (h : List.Sorted jobLe l) : List.Sorted jobLe (l.map setReorderFlag) :=
  List.Pairwise.map setReorderFlag (fun _ _ hab => hab) h

/-! Shared facts about `reorder_queued_jobs`. -/

theorem reorder_cases (jobs : List BatchJob) :
    reorder_queued_jobs jobs = jobs ∨
      reorder_queued_jobs jobs
        = replaceQueued jobs
            ((List.insertionSort jobLe (jobs.filter isQueued)).map setReorderFlag)
          ∧ 2 ≤ (jobs.filter isQueued).length := by
  unfold reorder_queued_jobs
  by_cases h1 : (jobs.filter isQueued).length < 2
  · left; rw [if_pos h1]
  · rw [if_neg h1]
    by_cases h2 : (jobs.filter isQueued).map BatchJob.id
        = (List.insertionSort jobLe (jobs.filter isQueued)).map BatchJob.id
    · left; rw [if_pos h2]
    · right
      exact ⟨by rw [if_neg h2], Nat.le_of_not_lt h1⟩

theorem mem_sorted_flagged_queued {jobs : List BatchJob} {r : BatchJob}
    (hr : r ∈ (List.insertionSort jobLe (jobs.filter isQueued)).map setReorderFlag) :
    isQueued r = true := by
  rcases List.mem_map.mp hr with ⟨x, hx, rfl⟩
  have hxq : x ∈ jobs.filter isQueued :=
    (List.perm_insertionSort jobLe _).subset hx
  have := List.of_mem_filter hxq
  simpa [isQueued, setReorderFlag] using this

theorem length_sorted_flagged_queued (jobs : List BatchJob) :
    ((List.insertionSort jobLe (jobs.filter isQueued)).map setReorderFlag).length
      = (jobs.filter isQueued).length := by
  rw [List.length_map]
  exact (List.perm_insertionSort jobLe _).length_eq

theorem length_reorder (jobs : List BatchJob) :
    (reorder_queued_jobs jobs).length = jobs.length := by
  rcases reorder_cases jobs with h | ⟨h, _⟩
  · rw [h]
  · rw [h, length_replaceQueued]

theorem reorder_forall₂ (jobs : List BatchJob) :
    List.Forall₂ (fun a b => b.status = a.status ∧ (isQueued a = false → b = a))
      jobs (reorder_queued_jobs jobs) := by
  rcases reorder_cases jobs with h | ⟨h, _⟩
  · rw [h]
    exact List.forall₂_same.mpr fun a _ => ⟨rfl, fun _ => rfl⟩
  · rw [h]
    exact forall₂_replaceQueued _ _ (fun r hr => mem_sorted_flagged_queued hr)
      (length_sorted_flagged_queued jobs)

theorem filter_queued_reorder_of_changed {jobs : List BatchJob}
    (h : reorder_queued_jobs jobs
      = replaceQueued jobs
          ((List.insertionSort jobLe (jobs.filter isQueued)).map setReorderFlag)) :
    (reorder_queued_jobs jobs).filter isQueued
      = (List.insertionSort jobLe (jobs.filter isQueued)).map setReorderFlag := by
  rw [h]
  exact filter_replaceQueued _ _ (fun r hr => mem_sorted_flagged_queued hr)
    (length_sorted_flagged_queued jobs)

theorem reorder_filter_perm (jobs : List BatchJob) :
    (((reorder_queued_jobs jobs).filter isQueued).map clearFlag).Perm
      ((jobs.filter isQueued).map clearFlag) := by
  rcases reorder_cases jobs with h | ⟨h, _⟩
  · rw [h]
  · rw [filter_queued_reorder_of_changed h]
    have hcs : ∀ j : BatchJob, clearFlag (setReorderFlag j) = clearFlag j :=
      fun _ => rfl
    rw [List.map_map, show clearFlag ∘ setReorderFlag = clearFlag from funext hcs]
    exact (List.perm_insertionSort jobLe _).map clearFlag

theorem reorder_filter_key_stable (jobs : List BatchJob) (k : String) :
    (((reorder_queued_jobs jobs).filter isQueued).filter
        (fun j => j.resource_key == k)).map clearFlag
      = ((jobs.filter isQueued).filter (fun j => j.resource_key == k)).map clearFlag := by
  rcases reorder_cases jobs with h | ⟨h, _⟩
  · rw [h]
  · rw [filter_queued_reorder_of_changed h]
    rw [List.filter_map]
    have hpf : ((fun j => j.resource_key == k) ∘ setReorderFlag)
        = (fun j : BatchJob => j.resource_key == k) := funext fun _ => rfl
    rw [hpf, filter_insertionSort_key k]
    rw [List.map_map, show clearFlag ∘ setReorderFlag = clearFlag from funext fun _ => rfl]

theorem reorder_filter_sorted (jobs : List BatchJob)
    (hids : (jobs.filter isQueued).Pairwise (fun a b => a.id ≠ b.id)) :
    List.Sorted jobLe ((reorder_queued_jobs jobs).filter isQueued) := by
  haveI : IsTotal BatchJob jobLe := ⟨jobLe_total⟩
  haveI : IsTrans BatchJob jobLe := ⟨fun _ _ _ => jobLe_trans⟩
  unfold reorder_queued_jobs
  by_cases h1 : (jobs.filter isQueued).length < 2
  · rw [if_pos h1]
    cases hq : jobs.filter isQueued with
    | nil => exact List.sorted_nil
    | cons a t =>
      cases t with
      | nil => exact List.sorted_singleton a
      | cons b t2 =>
        rw [hq] at h1
        simp at h1
        omega
  · rw [if_neg h1]
    by_cases h2 : (jobs.filter isQueued).map BatchJob.id
        = (List.insertionSort jobLe (jobs.filter isQueued)).map BatchJob.id
    · rw [if_pos h2]
      have hpw : (List.insertionSort jobLe (jobs.filter isQueued)).Pairwise
          (fun a b => a.id ≠ b.id) :=
        ((List.perm_insertionSort jobLe _).pairwise_iff
          (fun hxy he => hxy he.symm)).mpr hids
      have heq : jobs.filter isQueued = List.insertionSort jobLe (jobs.filter isQueued) :=
        eq_of_perm_of_map_eq BatchJob.id _ _
          (List.perm_insertionSort jobLe _).symm hpw h2
      rw [heq]
      exact List.sorted_insertionSort jobLe _
    · rw [if_neg h2]
      rw [filter_replaceQueued _ _ (fun r hr => mem_sorted_flagged_queued hr)
        (length_sorted_flagged_queued jobs)]
      exact sorted_map_setReorderFlag (List.sorted_insertionSort jobLe _)

/-- C1 (amended): the source's `BatchJob` has no priority field and the
reorder comparator reads only `resource_key`, so after a reorder pass,
provided the queued jobs carry pairwise-distinct ids (as the UUID-assigning
`enqueue` produces): every slot keeps its status and every non-queued job
keeps its exact position; the queued sub-list is sorted by `resource_key`
byte-wise ascending; the sorted jobs written back into the queued slots are
exactly the previous queued jobs (up to the reorder flag and note); and
within one resource key the previous relative order is preserved (the sort
is stable) — which is slot order, not necessarily `created_at` order. -/
theorem C1_reorder_grouping (jobs : List BatchJob)
    (hids : (jobs.filter isQueued).Pairwise (fun a b => a.id ≠ b.id)) :
    List.Forall₂ (fun a b => b.status = a.status ∧ (isQueued a = false → b = a))
      jobs (reorder_queued_jobs jobs)
    ∧ List.Sorted jobLe ((reorder_queued_jobs jobs).filter isQueued)
    ∧ (((reorder_queued_jobs jobs).filter isQueued).map clearFlag).Perm
        ((jobs.filter isQueued).map clearFlag)
    ∧ ∀ k : String,
        (((reorder_queued_jobs jobs).filter isQueued).filter
            (fun j => j.resource_key == k)).map clearFlag
          = ((jobs.filter isQueued).filter (fun j => j.resource_key == k)).map clearFlag :=
  ⟨reorder_forall₂ jobs, reorder_filter_sorted jobs hids,
    reorder_filter_perm jobs, fun k => reorder_filter_key_stable jobs k⟩

/-- C1 counterexample to the claim as stated: a seven-step API trace
(enqueue `q` on resource `x`; enqueue `a` on `x`; run `a`; fail its item;
complete `a`; enqueue `w` on resource `w`; retry `a`) whose final operation
is a successful `retry_failed`, after which the queued sub-list is
`[w (created 6), a (created 2), q (created 1)]`: the two jobs of resource
`x` are *not* in FIFO creation order, so the queued sub-list is not sorted
by `(priority, resource_key, created_at)` under any constant priority. -/
theorem C1_counterexample :
    c1ex7.1 = Except.ok ()
    ∧ (c1ex7.2.jobs.filter isQueued).map (fun j => (j.resource_key, j.created_at))
        = [("w", 6), ("x", 2), ("x", 1)]
    ∧ sortedByResourceCreated (c1ex7.2.jobs.filter isQueued) = false :=
  ⟨rfl, by decide, by decide⟩

/-- C1 witness: the amended reorder theorem applied to a concrete job list
(a running job between two queued ones with distinct ids). -/
theorem C1_witness :
    ((([mkJob "1" "b" "t" [], { mkJob "2" "c" "t" [] with status := BatchJobStatus.Running },
        mkJob "3" "a" "t" []] : List BatchJob).filter isQueued).Pairwise
      (fun a b => a.id ≠ b.id))
    ∧ (List.Forall₂ (fun a b => b.status = a.status ∧ (isQueued a = false → b = a))
        [mkJob "1" "b" "t" [], { mkJob "2" "c" "t" [] with status := BatchJobStatus.Running },
          mkJob "3" "a" "t" []]
        (reorder_queued_jobs
          [mkJob "1" "b" "t" [], { mkJob "2" "c" "t" [] with status := BatchJobStatus.Running },
            mkJob "3" "a" "t" []])
      ∧ List.Sorted jobLe ((reorder_queued_jobs
          [mkJob "1" "b" "t" [], { mkJob "2" "c" "t" [] with status := BatchJobStatus.Running },
            mkJob "3" "a" "t" []]).filter isQueued)
      ∧ (((reorder_queued_jobs
          [mkJob "1" "b" "t" [], { mkJob "2" "c" "t" [] with status := BatchJobStatus.Running },
            mkJob "3" "a" "t" []]).filter isQueued).map clearFlag).Perm
          ((([mkJob "1" "b" "t" [], { mkJob "2" "c" "t" [] with status := BatchJobStatus.Running },
            mkJob "3" "a" "t" []] : List BatchJob).filter isQueued).map clearFlag)
      ∧ ∀ k : String,
          (((reorder_queued_jobs
              [mkJob "1" "b" "t" [], { mkJob "2" "c" "t" [] with status := BatchJobStatus.Running },
                mkJob "3" "a" "t" []]).filter isQueued).filter
              (fun j => j.resource_key == k)).map clearFlag
            = ((([mkJob "1" "b" "t" [], { mkJob "2" "c" "t" [] with status := BatchJobStatus.Running },
                mkJob "3" "a" "t" []] : List BatchJob).filter isQueued).filter
                (fun j => j.resource_key == k)).map clearFlag) :=
  ⟨by decide, C1_reorder_grouping _ (by decide)⟩

/-- C2: the reorder pass is idempotent — applying `reorder_queued_jobs`
twice yields exactly the same job list (order, statuses, flags and notes)
as applying it once. -/
theorem C2_reorder_idempotent (jobs : List BatchJob) :
    reorder_queued_jobs (reorder_queued_jobs jobs) = reorder_queued_jobs jobs := by
  haveI : IsTotal BatchJob jobLe := ⟨jobLe_total⟩
  haveI : IsTrans BatchJob jobLe := ⟨fun _ _ _ => jobLe_trans⟩
  rcases reorder_cases jobs with h | ⟨h, hlen⟩
  · rw [h]
    exact h
  · have hfq := filter_queued_reorder_of_changed h
    have hsorted : List.Sorted jobLe ((reorder_queued_jobs jobs).filter isQueued) := by
      rw [hfq]
      exact sorted_map_setReorderFlag (List.sorted_insertionSort jobLe _)
    have hself : List.insertionSort jobLe ((reorder_queued_jobs jobs).filter isQueued)
        = (reorder_queued_jobs jobs).filter isQueued := hsorted.insertionSort_eq
    have hlen2 : ¬ ((reorder_queued_jobs jobs).filter isQueued).length < 2 := by
      rw [hfq, length_sorted_flagged_queued]
      omega
    set out := reorder_queued_jobs jobs with hout
    unfold reorder_queued_jobs
    rw [if_neg hlen2, if_pos (by rw [hself])]

/-- C2 witness: idempotence at a concrete two-job list that the first pass
actually reorders. -/
theorem C2_witness :
    reorder_queued_jobs (reorder_queued_jobs [mkJob "1" "x" "t" [], mkJob "2" "w" "t" []])
      = reorder_queued_jobs [mkJob "1" "x" "t" [], mkJob "2" "w" "t" []] :=
  C2_reorder_idempotent _

/-- C7 (amended): `mark_running` has no status guard — on any existing job,
whatever its current status, it sets the status to `Running` and
`started_at` to the current time; every other job is unchanged. -/
theorem C7_mark_running (st : QueueState) (jobId : String) (now : Nat)
    (j : BatchJob) (hj : st.jobs.find? (fun x => x.id == jobId) = some j) :
    (mark_running st jobId now).1 = Except.ok ()
    ∧ (mark_running st jobId now).2.eta = st.eta
    ∧ (mark_running st jobId now).2.jobs.find? (fun x => x.id == jobId)
        = some { j with status := BatchJobStatus.Running, started_at := some now }
    ∧ List.Forall₂ (fun a b => ((a.id == jobId) = false → b = a))
        st.jobs (mark_running st jobId now).2.jobs := by
  refine ⟨rfl, rfl, ?_, ?_⟩
  · have h1 := find?_updateFirst (fun (x : BatchJob) => x.id == jobId)
      (fun j2 => { j2 with status := BatchJobStatus.Running, started_at := some now })
      (fun x => rfl) st.jobs
    show List.find? _ (updateFirst _ _ st.jobs) = _
    rw [h1, hj]
    rfl
  · exact forall₂_updateFirst _ _ st.jobs

/-- C7 counterexample to the claim as stated: a job that is `Completed`
(not `Queued`) is nevertheless moved to `Running` with a fresh `started_at`
by `mark_running`, where the claim requires a no-op. -/
theorem C7_counterexample :
    (c7ex2.jobs.find? (fun x => x.id == "a")).map BatchJob.status
        = some BatchJobStatus.Completed
    ∧ (c7ex3.jobs.find? (fun x => x.id == "a")).map BatchJob.status
        = some BatchJobStatus.Running
    ∧ (c7ex3.jobs.find? (fun x => x.id == "a")).map BatchJob.started_at
        = some (some 3) :=
  ⟨by decide, by decide, by decide⟩

/-- C7 witness: the amended theorem applied to the concrete terminal job. -/
theorem C7_witness :
    c7ex2.jobs.find? (fun x => x.id == "a") = some c7job
    ∧ ((mark_running c7ex2 "a" 3).1 = Except.ok ()
      ∧ (mark_running c7ex2 "a" 3).2.eta = c7ex2.eta
      ∧ (mark_running c7ex2 "a" 3).2.jobs.find? (fun x => x.id == "a")
          = some { c7job with status := BatchJobStatus.Running, started_at := some 3 }
      ∧ List.Forall₂ (fun a b => ((a.id == "a") = false → b = a))
          c7ex2.jobs (mark_running c7ex2 "a" 3).2.jobs) :=
  ⟨by decide, C7_mark_running c7ex2 "a" 3 c7job (by decide)⟩

/-- C8 (amended): `enqueue` persists the job with status `Queued`
(overriding any supplied status), assigns the fresh id exactly when the
supplied id is empty, stamps `created_at`, returns the id, and never fails:
there is no duplicate-id check, so enqueueing an id already present
succeeds and stores a second job under the same id. -/
theorem C8_enqueue (st : QueueState) (job : BatchJob) (freshId : String) (now : Nat) :
    (enqueue st job freshId now).1
        = Except.ok (if job.id = "" then freshId else job.id)
    ∧ (enqueue st job freshId now).2.eta = st.eta
    ∧ (enqueue st job freshId now).2.jobs
        = reorder_queued_jobs (st.jobs ++
            [{ job with
                id := if job.id = "" then freshId else job.id
                status := BatchJobStatus.Queued
                created_at := now }])
    ∧ (enqueue st job freshId now).2.jobs.length = st.jobs.length + 1
    ∧ ∃ j2 ∈ (enqueue st job freshId now).2.jobs,
        clearFlag j2
          = clearFlag { job with
              id := if job.id = "" then freshId else job.id
              status := BatchJobStatus.Queued
              created_at := now } := by
  refine ⟨rfl, rfl, rfl, ?_, ?_⟩
  · show (reorder_queued_jobs (st.jobs ++ [_])).length = _
    rw [length_reorder, List.length_append]
    rfl
  · set j2 := { job with
      id := if job.id = "" then freshId else job.id
      status := BatchJobStatus.Queued
      created_at := now } with hj2
    have hjq : isQueued j2 = true := rfl
    have hmem : j2 ∈ (st.jobs ++ [j2]).filter isQueued :=
      List.mem_filter.mpr ⟨by simp, hjq⟩
    have hmap : clearFlag j2 ∈ ((st.jobs ++ [j2]).filter isQueued).map clearFlag :=
      List.mem_map_of_mem _ hmem
    have hmem2 : clearFlag j2
        ∈ (((reorder_queued_jobs (st.jobs ++ [j2])).filter isQueued).map clearFlag) :=
      (reorder_filter_perm (st.jobs ++ [j2])).symm.subset hmap
    rcases List.mem_map.mp hmem2 with ⟨j3, hj3mem, hj3eq⟩
    exact ⟨j3, List.mem_of_mem_filter hj3mem, hj3eq⟩

/-- C8 counterexample to the claim as stated: enqueueing a job whose id `a`
already exists returns `Ok "a"` (not a duplicate-id error), and the queue
then holds two jobs with the same id. -/
theorem C8_counterexample :
    c8ex2.1 = Except.ok "a" ∧ c8ex2.2.jobs.map BatchJob.id = ["a", "a"] :=
  ⟨rfl, by decide⟩

/-- C8 witness: the amended enqueue theorem applied to an empty queue and a
job with the supplied id `a`. -/
theorem C8_witness :
    (enqueue ⟨[], []⟩ (mkJob "a" "m" "t" [mkItem "i" SizeBucket.Medium]) "u1" 1).1
        = Except.ok (if (mkJob "a" "m" "t" [mkItem "i" SizeBucket.Medium]).id = ""
            then "u1" else (mkJob "a" "m" "t" [mkItem "i" SizeBucket.Medium]).id)
    ∧ (enqueue ⟨[], []⟩ (mkJob "a" "m" "t" [mkItem "i" SizeBucket.Medium]) "u1" 1).2.eta
        = (⟨[], []⟩ : QueueState).eta
    ∧ (enqueue ⟨[], []⟩ (mkJob "a" "m" "t" [mkItem "i" SizeBucket.Medium]) "u1" 1).2.jobs
        = reorder_queued_jobs ((⟨[], []⟩ : QueueState).jobs ++
            [{ mkJob "a" "m" "t" [mkItem "i" SizeBucket.Medium] with
                id := if (mkJob "a" "m" "t" [mkItem "i" SizeBucket.Medium]).id = ""
                  then "u1" else (mkJob "a" "m" "t" [mkItem "i" SizeBucket.Medium]).id
                status := BatchJobStatus.Queued
                created_at := 1 }])
    ∧ (enqueue ⟨[], []⟩
          (mkJob "a" "m" "t" [mkItem "i" SizeBucket.Medium]) "u1" 1).2.jobs.length
        = (⟨[], []⟩ : QueueState).jobs.length + 1
    ∧ ∃ j2 ∈ (enqueue ⟨[], []⟩
          (mkJob "a" "m" "t" [mkItem "i" SizeBucket.Medium]) "u1" 1).2.jobs,
        clearFlag j2
          = clearFlag { mkJob "a" "m" "t" [mkItem "i" SizeBucket.Medium] with
              id := if (mkJob "a" "m" "t" [mkItem "i" SizeBucket.Medium]).id = ""
                then "u1" else (mkJob "a" "m" "t" [mkItem "i" SizeBucket.Medium]).id
              status := BatchJobStatus.Queued
              created_at := 1 } :=
  C8_enqueue ⟨[], []⟩ (mkJob "a" "m" "t" [mkItem "i" SizeBucket.Medium]) "u1" 1

/-- C10: `update_item` applies the requested status, error and duration to
an existing item unconditionally — no guard on the previous item status —
leaving the other items and the job's own fields unchanged. -/
theorem C10_update_item_unguarded (st : QueueState) (jobId itemId : String)
    (stat : BatchItemStatus) (err : Option String) (dur : Option Nat)
    (j : BatchJob) (hj : st.jobs.find? (fun x => x.id == jobId) = some j)
    (it : BatchItem) (hi : j.items.find? (fun x => x.id == itemId) = some it) :
    ∃ j2, (update_item st jobId itemId stat err dur).2.jobs.find?
          (fun x => x.id == jobId) = some j2
      ∧ j2.items.find? (fun x => x.id == itemId)
          = some { it with status := stat, error := err, duration_ms := dur }
      ∧ List.Forall₂ (fun a b => ((a.id == itemId) = false → b = a)) j.items j2.items
      ∧ j2.id = j.id ∧ j2.status = j.status ∧ j2.created_at = j.created_at := by
  refine ⟨{ j with items := (updateFirst (fun i => i.id == itemId)
      (fun i => { i with status := stat, error := err, duration_ms := dur }) j.items) },
    ?_, ?_, ?_, rfl, rfl, rfl⟩
  · have h1 := find?_updateFirst (fun (x : BatchJob) => x.id == jobId)
      (fun j2 => { j2 with items := (updateFirst (fun i => i.id == itemId)
        (fun i => { i with status := stat, error := err, duration_ms := dur }) j2.items) })
      (fun x => rfl) st.jobs
    simp only [update_item, hj, hi]
    rw [h1, hj]
    rfl
  · have h2 := find?_updateFirst (fun (x : BatchItem) => x.id == itemId)
      (fun i => { i with status := stat, error := err, duration_ms := dur })
      (fun x => rfl) j.items
    show List.find? _ (updateFirst _ _ j.items) = _
    rw [h2, hi]
    rfl
  · exact forall₂_updateFirst _ _ j.items

/-- C10 witness: a `Cancelled` item is moved back to `Pending` by a direct
`update_item` call. -/
theorem C10_witness :
    c10ex.jobs.find? (fun x => x.id == "a") = some c10job
    ∧ c10job.items.find? (fun x => x.id == "i") = some c10item
    ∧ c10item.status = BatchItemStatus.Cancelled
    ∧ ∃ j2, (update_item c10ex "a" "i" BatchItemStatus.Pending none none).2.jobs.find?
          (fun x => x.id == "a") = some j2
        ∧ j2.items.find? (fun x => x.id == "i")
            = some { c10item with
                status := BatchItemStatus.Pending, error := none, duration_ms := none }
        ∧ List.Forall₂ (fun a b => ((a.id == "i") = false → b = a)) c10job.items j2.items
        ∧ j2.id = c10job.id ∧ j2.status = c10job.status ∧ j2.created_at = c10job.created_at :=
  ⟨by decide, by decide, by decide,
    C10_update_item_unguarded c10ex "a" "i" BatchItemStatus.Pending none none
      c10job (by decide) c10item (by decide)⟩

/-- C6 (amended): `cancel_job` on an existing job transitions every
`Pending` item to `Cancelled`, leaves items of other statuses unchanged,
and sets the job's status to `Cancelled` with `completed_at` exactly when
no item of the job is `Running`; on a non-existent job id it returns `Ok`
and leaves the state unchanged (there is no not-found error). -/
theorem C6_cancel_job (st : QueueState) (jobId : String) (now : Nat) :
    (cancel_job st jobId now).1 = Except.ok ()
    ∧ (cancel_job st jobId now).2.eta = st.eta
    ∧ (st.jobs.find? (fun x => x.id == jobId) = none →
        (cancel_job st jobId now).2 = st)
    ∧ ∀ j, st.jobs.find? (fun x => x.id == jobId) = some j →
        (cancel_job st jobId now).2.jobs.find? (fun x => x.id == jobId)
            = some (cancelJobUpdate now j)
        ∧ List.Forall₂ (fun a b =>
            (a.status = BatchItemStatus.Pending →
              b = { a with status := BatchItemStatus.Cancelled })
            ∧ (a.status ≠ BatchItemStatus.Pending → b = a))
            j.items (cancelJobUpdate now j).items
        ∧ (j.items.any (fun i => i.status == BatchItemStatus.Running) = false →
            (cancelJobUpdate now j).status = BatchJobStatus.Cancelled
            ∧ (cancelJobUpdate now j).completed_at = some now)
        ∧ (j.items.any (fun i => i.status == BatchItemStatus.Running) = true →
            (cancelJobUpdate now j).status = j.status
            ∧ (cancelJobUpdate now j).completed_at = j.completed_at)
        ∧ List.Forall₂ (fun a b => ((a.id == jobId) = false → b = a))
            st.jobs (cancel_job st jobId now).2.jobs := by
  refine ⟨rfl, rfl, ?_, ?_⟩
  · intro hnone
    show ({ st with jobs := updateFirst (fun x => x.id == jobId) (cancelJobUpdate now) st.jobs }
      : QueueState) = st
    rw [updateFirst_of_find?_none _ _ st.jobs hnone]
  · intro j hj
    have h1 := find?_updateFirst (fun (x : BatchJob) => x.id == jobId)
      (cancelJobUpdate now) (fun x => by simp only [cancelJobUpdate_id]) st.jobs
    refine ⟨?_, ?_, ?_, ?_, forall₂_updateFirst _ _ st.jobs⟩
    · show List.find? _ (updateFirst _ _ st.jobs) = _
      rw [h1, hj]
      rfl
    · rw [cancelJobUpdate_items]
      rw [List.forall₂_map_right_iff]
      refine List.forall₂_same.mpr fun i _ => ⟨?_, ?_⟩
      · intro hp
        simp [cancelPendingItem, hp]
      · intro hp
        have : (i.status == BatchItemStatus.Pending) = false := by
          simpa using hp
        simp [cancelPendingItem, this]
    · intro hno
      unfold cancelJobUpdate
      rw [any_running_map_cancelPending, hno]
      exact ⟨rfl, rfl⟩
    · intro hyes
      unfold cancelJobUpdate
      rw [any_running_map_cancelPending, hyes]
      exact ⟨rfl, rfl⟩

/-- C6 counterexample to the claim as stated: cancelling a non-existent job
id on an empty queue returns `Ok ()` with the state unchanged — not the
claimed not-found error. -/
theorem C6_counterexample :
    cancel_job ⟨[], []⟩ "nope" 0 = (Except.ok (), (⟨[], []⟩ : QueueState)) := rfl

/-- C6 witness: the amended theorem applied to a queued job with one
pending item, plus the evaluated outcome: the item and the job both end up
`Cancelled`. -/
theorem C6_witness :
    (c6ex.jobs.find? (fun x => x.id == "a") = some c6job
      ∧ ((cancel_job c6ex "a" 2).2.jobs.find? (fun x => x.id == "a")).map
          BatchJob.status = some BatchJobStatus.Cancelled
      ∧ ((cancel_job c6ex "a" 2).2.jobs.find? (fun x => x.id == "a")).map
          (fun j => j.items.map BatchItem.status)
          = some [BatchItemStatus.Cancelled])
    ∧ ((cancel_job c6ex "a" 2).1 = Except.ok ()
      ∧ (cancel_job c6ex "a" 2).2.eta = c6ex.eta
      ∧ (c6ex.jobs.find? (fun x => x.id == "a") = none →
          (cancel_job c6ex "a" 2).2 = c6ex)
      ∧ ∀ j, c6ex.jobs.find? (fun x => x.id == "a") = some j →
          (cancel_job c6ex "a" 2).2.jobs.find? (fun x => x.id == "a")
              = some (cancelJobUpdate 2 j)
          ∧ List.Forall₂ (fun a b =>
              (a.status = BatchItemStatus.Pending →
                b = { a with status := BatchItemStatus.Cancelled })
              ∧ (a.status ≠ BatchItemStatus.Pending → b = a))
              j.items (cancelJobUpdate 2 j).items
          ∧ (j.items.any (fun i => i.status == BatchItemStatus.Running) = false →
              (cancelJobUpdate 2 j).status = BatchJobStatus.Cancelled
              ∧ (cancelJobUpdate 2 j).completed_at = some 2)
          ∧ (j.items.any (fun i => i.status == BatchItemStatus.Running) = true →
              (cancelJobUpdate 2 j).status = j.status
              ∧ (cancelJobUpdate 2 j).completed_at = j.completed_at)
          ∧ List.Forall₂ (fun a b => ((a.id == "a") = false → b = a))
              c6ex.jobs (cancel_job c6ex "a" 2).2.jobs) :=
  ⟨⟨by decide, by decide, by decide⟩, C6_cancel_job c6ex "a" 2⟩

/-- C4: `mark_completed` on an existing job returns a summary whose
`total` is the item count, `succeeded` counts `Completed` items, `failed`
counts `Failed` items, `skipped` counts `Cancelled`-or-`Skipped` items,
`total_duration_ms` is the `u64` sum of all recorded item durations, and
`avg_duration_ms` is that total integer-divided by `succeeded + failed`
(zero when nothing was processed); the job's status becomes
`CompletedWithErrors` when some item is `Failed` and `Completed` otherwise,
with `completed_at` set; all other jobs are unchanged. -/
theorem C4_mark_completed (st : QueueState) (jobId : String) (now : Nat)
    (j : BatchJob) (hj : st.jobs.find? (fun x => x.id == jobId) = some j) :
    (mark_completed st jobId now).1
      = Except.ok (some
        { job_id := j.id
          operation := j.operation
          resource_key := j.resource_key
          total := j.items.length
          succeeded := j.items.countP (fun i => i.status == BatchItemStatus.Completed)
          failed := j.items.countP (fun i => i.status == BatchItemStatus.Failed)
          skipped := j.items.countP (fun i =>
            i.status == BatchItemStatus.Cancelled || i.status == BatchItemStatus.Skipped)
          total_duration_ms := (j.items.filterMap (fun i => i.duration_ms)).sum % U64
          avg_duration_ms :=
            if j.items.countP (fun i => i.status == BatchItemStatus.Completed)
                + j.items.countP (fun i => i.status == BatchItemStatus.Failed) = 0
            then 0
            else ((j.items.filterMap (fun i => i.duration_ms)).sum % U64)
              / (j.items.countP (fun i => i.status == BatchItemStatus.Completed)
                + j.items.countP (fun i => i.status == BatchItemStatus.Failed)) })
    ∧ (mark_completed st jobId now).2.eta = st.eta
    ∧ (mark_completed st jobId now).2.jobs.find? (fun x => x.id == jobId)
        = some { j with
            status := if j.items.any (fun i => i.status == BatchItemStatus.Failed)
              then BatchJobStatus.CompletedWithErrors else BatchJobStatus.Completed
            completed_at := some now }
    ∧ List.Forall₂ (fun a b => ((a.id == jobId) = false → b = a))
        st.jobs (mark_completed st jobId now).2.jobs := by
  refine ⟨?_, ?_, ?_, ?_⟩
  · simp only [mark_completed, hj, List.countP_eq_length_filter]
    congr 2
    by_cases hp : (j.items.filter (fun i => i.status == BatchItemStatus.Completed)).length
        + (j.items.filter (fun i => i.status == BatchItemStatus.Failed)).length = 0
    · simp [hp]
    · simp [hp, Nat.pos_of_ne_zero hp]
  · simp only [mark_completed, hj]
  · have h1 := find?_updateFirst (fun (x : BatchJob) => x.id == jobId)
      (fun j2 => { j2 with
        status := if 0 < (j.items.filter
            (fun i => i.status == BatchItemStatus.Failed)).length
          then BatchJobStatus.CompletedWithErrors else BatchJobStatus.Completed
        completed_at := some now })
      (fun x => rfl) st.jobs
    simp only [mark_completed, hj]
    rw [h1, hj]
    simp only [Option.map_some']
    congr 2
    exact if_congr (filter_length_pos_iff_any _ _) rfl rfl
  · simp only [mark_completed, hj]
    exact forall₂_updateFirst _ _ st.jobs

/-- C4 witness: the 1000/5000/1000 scenario — `mark_completed` yields
total=3, succeeded=2, failed=1, skipped=0, total_duration_ms=7000,
avg_duration_ms=2333 and status `CompletedWithErrors`. -/
theorem C4_witness :
    c4ex5.jobs.find? (fun x => x.id == "j") = some c4job
    ∧ (mark_completed c4ex5 "j" 9).1
        = Except.ok (some
          { job_id := "j", operation := "op", resource_key := "m", total := 3
            succeeded := 2, failed := 1, skipped := 0
            total_duration_ms := 7000, avg_duration_ms := 2333 })
    ∧ ((mark_completed c4ex5 "j" 9).2.jobs.find? (fun x => x.id == "j")).map
        BatchJob.status = some BatchJobStatus.CompletedWithErrors
    ∧ ((mark_completed c4ex5 "j" 9).2.jobs.find? (fun x => x.id == "j")).map
        BatchJob.completed_at = some (some 9)
    ∧ (mark_completed c4ex5 "j" 9).2.jobs.find? (fun x => x.id == "j")
        = some { c4job with
            status := if c4job.items.any (fun i => i.status == BatchItemStatus.Failed)
              then BatchJobStatus.CompletedWithErrors else BatchJobStatus.Completed
            completed_at := some 9 } :=
  ⟨by decide, by decide, by decide, by decide,
    (C4_mark_completed c4ex5 "j" 9 c4job (by decide)).2.2.1⟩

/-- C5: `retry_failed` on an existing job with no `Failed` item returns the
source's error and leaves the entire queue state unchanged; with at least
one `Failed` item it resets exactly the `Failed` items to `Pending`
(clearing error and duration), leaves all other items untouched, sets the
job's status to `Queued` and `completed_at` to null, and runs the reorder
pass over the resulting job list. -/
theorem C5_retry_failed (st : QueueState) (jobId : String)
    (j : BatchJob) (hj : st.jobs.find? (fun x => x.id == jobId) = some j) :
    (j.items.any (fun i => i.status == BatchItemStatus.Failed) = false →
      retry_failed st jobId
        = (Except.error ("No failed items to retry in job " ++ jobId), st))
    ∧ (j.items.any (fun i => i.status == BatchItemStatus.Failed) = true →
      (retry_failed st jobId).1 = Except.ok ()
      ∧ (retry_failed st jobId).2.eta = st.eta
      ∧ (retry_failed st jobId).2.jobs
          = reorder_queued_jobs
              (updateFirst (fun x => x.id == jobId) retryJobUpdate st.jobs)
      ∧ retryJobUpdate j
          = { j with
              items := j.items.map resetFailedItem
              status := BatchJobStatus.Queued
              completed_at := none }
      ∧ ∀ i : BatchItem,
          (i.status = BatchItemStatus.Failed →
            resetFailedItem i
              = { i with
                  status := BatchItemStatus.Pending
                  error := none
                  duration_ms := none })
          ∧ (i.status ≠ BatchItemStatus.Failed → resetFailedItem i = i)) := by
  constructor
  · intro hno
    simp only [retry_failed, hj, hno]
    rfl
  · intro hyes
    simp only [retry_failed, hj, hyes]
    refine ⟨rfl, rfl, rfl, rfl, ?_⟩
    intro i
    constructor
    · intro hf
      simp [resetFailedItem, hf]
    · intro hf
      have : (i.status == BatchItemStatus.Failed) = false := by simpa using hf
      simp [resetFailedItem, this]

/-- C5 witness: after the C4 scenario is completed, retrying resets only
the failed item — items end `[Completed, Pending, Completed]`, the job is
`Queued` again with `completed_at` cleared — and a second retry on the now
failure-free job returns the error with the state unchanged. -/
theorem C5_witness :
    c5ex.jobs.find? (fun x => x.id == "j") = some c5job
    ∧ c5job.items.any (fun i => i.status == BatchItemStatus.Failed) = true
    ∧ ((retry_failed c5ex "j").1 = Except.ok ()
      ∧ (retry_failed c5ex "j").2.eta = c5ex.eta
      ∧ (retry_failed c5ex "j").2.jobs
          = reorder_queued_jobs
              (updateFirst (fun x => x.id == "j") retryJobUpdate c5ex.jobs)
      ∧ retryJobUpdate c5job
          = { c5job with
              items := c5job.items.map resetFailedItem
              status := BatchJobStatus.Queued
              completed_at := none }
      ∧ ∀ i : BatchItem,
          (i.status = BatchItemStatus.Failed →
            resetFailedItem i
              = { i with
                  status := BatchItemStatus.Pending
                  error := none
                  duration_ms := none })
          ∧ (i.status ≠ BatchItemStatus.Failed → resetFailedItem i = i))
    ∧ ((retry_failed c5ex "j").2.jobs.find? (fun x => x.id == "j")).map
        (fun jj => jj.items.map BatchItem.status)
        = some [BatchItemStatus.Completed, BatchItemStatus.Pending,
            BatchItemStatus.Completed]
    ∧ ((retry_failed c5ex "j").2.jobs.find? (fun x => x.id == "j")).map
        (fun jj => (jj.status, jj.completed_at))
        = some (BatchJobStatus.Queued, none)
    ∧ ((retry_failed c5ex "j").2.jobs.find? (fun x => x.id == "j")).map
        (fun jj => (jj.items.map BatchItem.error, jj.items.map BatchItem.duration_ms))
        = some ([none, none, none], [some 1000, none, some 1000])
    ∧ retry_failed (retry_failed c5ex "j").2 "j"
        = (Except.error "No failed items to retry in job j", (retry_failed c5ex "j").2) :=
  ⟨by decide, by decide,
    (C5_retry_failed c5ex "j" c5job (by decide)).2 (by decide),
    by decide, by decide, by decide, by decide⟩

/-- C9: `update_item` forwards a sample to the ETA estimator exactly when
the new status is `Completed` and a duration is supplied; the sample is
accumulated under the exact `(resource_key, operation, size_bucket)` key of
the job and item, after which that key holds a stats entry with a positive
count whose average is its accumulated total integer-divided by its
count. -/
theorem C9_update_item_eta (st : QueueState) (jobId itemId : String)
    (err : Option String) (d : Nat)
    (j : BatchJob) (hj : st.jobs.find? (fun x => x.id == jobId) = some j)
    (it : BatchItem) (hi : j.items.find? (fun x => x.id == itemId) = some it) :
    (update_item st jobId itemId BatchItemStatus.Completed err (some d)).2.eta
        = etaRecord st.eta ⟨j.resource_key, j.operation, it.size_bucket⟩ d
    ∧ (∀ (stat : BatchItemStatus) (dur : Option Nat),
        stat ≠ BatchItemStatus.Completed ∨ dur = none →
        (update_item st jobId itemId stat err dur).2.eta = st.eta)
    ∧ ∃ s : EtaStats,
        etaLookup
            (update_item st jobId itemId BatchItemStatus.Completed err (some d)).2.eta
            ⟨j.resource_key, j.operation, it.size_bucket⟩ = some s
        ∧ 0 < s.count
        ∧ s.avg_ms = s.total_ms / s.count
        ∧ s.total_ms
            = (((etaLookup st.eta ⟨j.resource_key, j.operation, it.size_bucket⟩).getD
                ⟨0, 0⟩).total_ms + d) % U64
        ∧ s.count
            = ((etaLookup st.eta ⟨j.resource_key, j.operation, it.size_bucket⟩).getD
                ⟨0, 0⟩).count + 1 := by
  have heta : (update_item st jobId itemId BatchItemStatus.Completed err (some d)).2.eta
      = etaRecord st.eta ⟨j.resource_key, j.operation, it.size_bucket⟩ d := by
    simp only [update_item, hj, hi]
  refine ⟨heta, ?_, ?_⟩
  · intro stat dur hcase
    simp only [update_item, hj, hi]
    rcases hcase with hstat | hdur
    · cases stat <;> cases dur <;> first | rfl | exact absurd rfl hstat
    · subst hdur
      cases stat <;> rfl
  · rw [heta, etaLookup_etaRecord_self]
    refine ⟨_, rfl, Nat.succ_pos _, ?_, rfl, rfl⟩
    show EtaStats.avg_ms _ = _
    unfold EtaStats.avg_ms
    rw [if_neg (Nat.succ_ne_zero _)]

/-- C9 witness: completing item `i0` (bucket `Medium`) with 1000 ms on the
running C3 job records the sample under `("m", "tag", Medium)`; the stored
entry has count 1, total 1000 and average 1000. -/
theorem C9_witness :
    c3ex2.jobs.find? (fun x => x.id == "j") = some c9job
    ∧ c9job.items.find? (fun x => x.id == "i0") = some c9item
    ∧ ((update_item c3ex2 "j" "i0" BatchItemStatus.Completed none (some 1000)).2.eta
          = etaRecord c3ex2.eta ⟨c9job.resource_key, c9job.operation, c9item.size_bucket⟩
              1000
      ∧ (∀ (stat : BatchItemStatus) (dur : Option Nat),
          stat ≠ BatchItemStatus.Completed ∨ dur = none →
          (update_item c3ex2 "j" "i0" stat none dur).2.eta = c3ex2.eta)
      ∧ ∃ s : EtaStats,
          etaLookup
              (update_item c3ex2 "j" "i0" BatchItemStatus.Completed none
                (some 1000)).2.eta
              ⟨c9job.resource_key, c9job.operation, c9item.size_bucket⟩ = some s
          ∧ 0 < s.count
          ∧ s.avg_ms = s.total_ms / s.count
          ∧ s.total_ms
              = (((etaLookup c3ex2.eta
                  ⟨c9job.resource_key, c9job.operation, c9item.size_bucket⟩).getD
                  ⟨0, 0⟩).total_ms + 1000) % U64
          ∧ s.count
              = ((etaLookup c3ex2.eta
                  ⟨c9job.resource_key, c9job.operation, c9item.size_bucket⟩).getD
                  ⟨0, 0⟩).count + 1)
    ∧ etaLookup c3ex3.eta ⟨"m", "tag", SizeBucket.Medium⟩
        = some ⟨1000, 1⟩ :=
  ⟨by decide, by decide,
    C9_update_item_eta c3ex2 "j" "i0" none 1000 c9job (by decide) c9item (by decide),
    by decide⟩

/-- C3: `estimate_remaining` returns nothing when no bucket in the list has
any data, not even via the `Unknown` fallback for the same
(resource, operation); otherwise it returns the `u64` sum of per-bucket
averages (each bucket falling back to the `Unknown` average, and
contributing nothing when neither key has data); `estimate_remaining_ms`
for an existing job whose items are all terminal returns zero; and in the
concrete scenario (3 `Medium` items, one completed in 1000 ms) it returns
2000. -/
theorem C3_estimate_remaining_spec :
    (∀ (m : List (EtaKey × EtaStats)) (rk op : String) (bs : List SizeBucket),
      (∀ b ∈ bs, bucketContribution m rk op b = none) →
      estimate_remaining m rk op bs = none)
    ∧ (∀ (m : List (EtaKey × EtaStats)) (rk op : String) (bs : List SizeBucket),
        (∃ b ∈ bs, (bucketContribution m rk op b).isSome = true) →
        estimate_remaining m rk op bs
          = some ((bs.map (fun b => (bucketContribution m rk op b).getD 0)).sum % U64))
    ∧ (∀ (st : QueueState) (jobId : String) (j : BatchJob),
        st.jobs.find? (fun x => x.id == jobId) = some j →
        (∀ i ∈ j.items, i.status ≠ BatchItemStatus.Pending
          ∧ i.status ≠ BatchItemStatus.Running) →
        estimate_remaining_ms st jobId = some 0)
    ∧ estimate_remaining_ms c3ex3 "j" = some 2000 := by
  refine ⟨?_, ?_, ?_, by decide⟩
  · intro m rk op bs hnone
    rw [estimate_remaining_characterization]
    have hany : bs.any (fun b => (bucketContribution m rk op b).isSome) = false :=
      List.any_eq_false.mpr fun b hb => by rw [hnone b hb]; simp
    rw [if_neg (by simp [hany])]
  · intro m rk op bs hsome
    rw [estimate_remaining_characterization]
    have hany : bs.any (fun b => (bucketContribution m rk op b).isSome) = true :=
      List.any_eq_true.mpr hsome
    rw [if_pos hany]
  · intro st jobId j hj hterm
    simp only [estimate_remaining_ms, hj]
    have hfil : j.items.filter (fun i =>
        i.status == BatchItemStatus.Pending || i.status == BatchItemStatus.Running)
        = [] :=
      List.filter_eq_nil_iff.mpr fun i hi => by
        rcases hterm i hi with ⟨h1, h2⟩
        simp [h1, h2]
    rw [hfil]
    rfl

/-- C3 witness: the none-case on an empty map, the sum-case on a one-entry
map, and the zero-case on the all-terminal C3 job. -/
theorem C3_witness :
    estimate_remaining [] "m" "t" [SizeBucket.Medium] = none
    ∧ estimate_remaining [(⟨"m", "t", SizeBucket.Medium⟩, ⟨1000, 1⟩)] "m" "t"
        [SizeBucket.Medium, SizeBucket.Medium]
      = some ((([SizeBucket.Medium, SizeBucket.Medium].map
          (fun b => (bucketContribution [(⟨"m", "t", SizeBucket.Medium⟩, ⟨1000, 1⟩)]
            "m" "t" b).getD 0)).sum) % U64)
    ∧ c3ex5.jobs.find? (fun x => x.id == "j") = some c3tjob
    ∧ estimate_remaining_ms c3ex5 "j" = some 0 :=
  ⟨C3_estimate_remaining_spec.1 [] "m" "t" [SizeBucket.Medium] (by decide),
    C3_estimate_remaining_spec.2.1 _ "m" "t" _ ⟨SizeBucket.Medium, by decide, by decide⟩,
    by decide,
    C3_estimate_remaining_spec.2.2.1 c3ex5 "j" c3tjob (by decide) (by decide)⟩

end AIBatchQueue
